import Mathlib

/-!
# msh: tokenizer, plugin registry and command dispatch

A shallow embedding of `src/msh.c`.  A C string is the list of its characters
before the terminating NUL; a NULL-terminated `char**` is the list of the
strings before the NULL.  Global variables (`plugins`, `plugin_count`,
`should_suppress_prompt`) are the fields of an explicit `Shell` state, and the
calls the program makes to its environment (streams, the module loader, the
process primitives) are appended to a trace.  The answers of the environment
are the fields of a `World`, chosen afresh for every step.  Calls into loaded
code (`initialize`, `run`) are recorded in the trace; they are taken to return
and to leave the globals of the shell alone.
-/

namespace Msh

/-- A C string: the characters (bytes) that precede the terminating NUL. -/
abbrev CStr := List Char

def MAX_COMMAND_LENGTH : Nat := 200
def MAX_ARG_LENGTH : Nat := 20
def MAX_ARGS : Nat := 20
def MAX_PLUGINS : Nat := 10

/-! ## Tokenizer (`parse_input`, lines 28-54) -/

/-- Membership of a character in a delimiter set, as `strspn`, `strcspn` test it. -/
def is_delim (delim : CStr) (c : Char) : Bool := delim.contains c

/-- The libc function `strtok`, with the saved position made explicit: the
argument is the string scanning starts at (the input on the first call, the
saved position on a call with NULL).  Returns the token (`none` for NULL) and
the new saved position. -/
def strtok (s : CStr) (delim : CStr) : Option CStr × CStr :=
  match s.dropWhile (is_delim delim) with          -- s += strspn(s, delim)
  | [] => (none, [])                               -- *s == 0: return NULL
  | c :: cs =>
    let token := (c :: cs).takeWhile (fun x => !is_delim delim x)
    match (c :: cs).dropWhile (fun x => !is_delim delim x) with  -- token + strcspn
    | [] => (some token, [])                       -- token runs to the end
    | _ :: rest => (some token, rest)              -- *end = 0; saved = end + 1

/-- The local variables of `parse_input`: `size`, `index`, the slots
`(*parsed)[0 .. index)` written so far, and a log of every store into the
array as (slot index, capacity of the array at the time of the store). -/
structure ParseState where
  size : Nat
  index : Nat
  parsed : List CStr
  writes : List (Nat × Nat)
deriving DecidableEq, Repr

/-- Lines 40-47: double `size` when `index >= size`. -/
def grow (st : ParseState) : ParseState :=
  if st.index >= st.size then { st with size := st.size * 2 } else st

/-- Line 49: `(*parsed)[index++] = strdup(token)`. -/
def store_token (st : ParseState) (token : CStr) : ParseState :=
  { st with parsed := st.parsed ++ [token],
            writes := st.writes ++ [(st.index, st.size)],
            index := st.index + 1 }

/-- The `while (token != NULL)` loop of lines 39-51.  Every round consumes at
least one character of the line, so `fuel` rounds with `fuel` above the length
of the line are never used up (see `parse_loop_spec`). -/
def parse_loop : Nat → Option CStr → CStr → ParseState → ParseState
  | 0, _, _, st => st
  | _ + 1, none, _, st => st
  | fuel + 1, some token, saved, st =>
    let st1 := store_token (grow st) token
    let next := strtok saved [' ', '\n']
    parse_loop fuel next.1 next.2 st1

/-- The function `parse_input` (lines 28-54).  Allocation is taken to succeed.
The last store is the NULL terminator of line 53; `parsed` holds the strings
in front of it. -/
def parse_input (input : CStr) : ParseState :=
  let st0 : ParseState := { size := 10, index := 0, parsed := [], writes := [] }
  let first := strtok input [' ', '\n']
  let st := parse_loop (input.length + 1) first.1 first.2 st0
  { st with writes := st.writes ++ [(st.index, st.size)] }

/-- The specification of tokenizing in the words of the claim: `toks` are the
maximal non-empty delimiter-free substrings of `line`, left to right.  The line
is a run of delimiters, or a run of delimiters, a token, and a rest that is
empty or begins with a delimiter and is tokenized the same way. -/
inductive Tokenization : CStr → List CStr → Prop
  | done (gap : CStr) (hgap : ∀ c ∈ gap, c = ' ' ∨ c = '\n') : Tokenization gap []
  | token (gap tok rest : CStr) (toks : List CStr)
      (hgap : ∀ c ∈ gap, c = ' ' ∨ c = '\n')
      (hne : tok ≠ [])
      (htok : ∀ c ∈ tok, c ≠ ' ' ∧ c ≠ '\n')
      (hrest : rest = [] ∨ ∃ d r, rest = d :: r ∧ (d = ' ' ∨ d = '\n'))
      (htail : Tokenization rest toks) :
      Tokenization (gap ++ tok ++ rest) (tok :: toks)

/-! ## State, environment and trace -/

/-- The struct `Plugin` (lines 15-20).  Pointers are addresses; `name` is the
string held in the `char name[MAX_ARG_LENGTH]` array. -/
structure Plugin where
  handle : Nat
  init : Nat
  run : Nat
  name : CStr
deriving DecidableEq, Repr

/-- What the program does to its environment, in program order. -/
inductive Event where
  /-- Line 177, `printf("> ")`. -/
  | prompt
  /-- Line 59, "Maximum number of plugins already loaded." on stdout. -/
  | max_plugins_msg
  /-- Lines 68, 76, 90, "Error: Plugin %s initialization failed!" on stderr. -/
  | init_failed_msg (plugin_name : CStr)
  /-- Line 118, "Error: Plugin 123 initialization failed!" on stderr. -/
  | init_failed_123_msg
  /-- Line 84, "Error finding initialize function: %s" on stderr. -/
  | find_init_msg
  /-- Line 99, "Error finding run function: %s" on stderr. -/
  | find_run_msg
  /-- Line 183, the newline printed at end of input. -/
  | newline
  /-- A call of `perror`. -/
  | perror (what : CStr)
  /-- Line 74, `dlopen(plugin_path, RTLD_LAZY)`. -/
  | dlopen (path : CStr)
  /-- Lines 85, 91, 100, `dlclose(handle)`. -/
  | dlclose (handle : Nat)
  /-- Line 89, the call `initialize()` through the resolved pointer. -/
  | call_init (fn : Nat)
  /-- Lines 138, 196, the call `run(parsed)` through a registered pointer. -/
  | call_run (fn : Nat) (argv : List CStr)
  /-- Lines 143-161 with a successful `fork`: the child calls
  `execvp(file, argv)` and the parent waits for it. -/
  | spawn (file : Option CStr) (argv : List CStr)
deriving DecidableEq, Repr

/-- The answers of the environment during one step of the program: the module
loader, the loaded code and `fork`. -/
structure World where
  /-- The handle `dlopen` returns for a path, 0 for NULL. -/
  dlopen : CStr → Nat
  /-- The address `dlsym` returns for a handle and a symbol. -/
  dlsym : Nat → CStr → Nat
  /-- Whether `dlerror()` is non-NULL right after that `dlsym`. -/
  dlerror : Nat → CStr → Bool
  /-- The value the function at an address returns when called as `initialize()`. -/
  init_result : Nat → Int
  /-- The value `fork()` returns in the shell process, -1 on failure. -/
  fork : Int

/-- The global variables of the program and the trace of its actions.
`plugins` is `plugins[0 .. plugin_count)`. -/
structure Shell where
  plugins : List Plugin
  should_suppress_prompt : Bool
  trace : List Event
deriving DecidableEq, Repr

/-- The global `plugin_count`. -/
def plugin_count (s : Shell) : Nat := s.plugins.length

/-- The state at program start (lines 22-24). -/
def initial : Shell := { plugins := [], should_suppress_prompt := false, trace := [] }

/-- Appends one action to the trace. -/
def emit (s : Shell) (e : Event) : Shell := { s with trace := s.trace ++ [e] }

/-- How a piece of the program ends: it returns a value, it calls `exit`, or it
dereferences a NULL `parsed[0]`. -/
inductive Ctl (α : Type) where
  | ret (s : Shell) (v : α)
  | exit (s : Shell) (status : Int)
  | fault (s : Shell)
deriving DecidableEq, Repr

/-! ## Plugin registry (`load_plugin`, lines 57-109) -/

/-- The linear scans of lines 66-72 and 135-141: the first plugin whose stored
name compares equal (`strcmp(...) == 0`) to `name`. -/
def find_plugin (plugins : List Plugin) (name : CStr) : Option Plugin :=
  plugins.find? (fun p => p.name == name)

/-- Line 64, `snprintf(plugin_path, sizeof(plugin_path), "./%s.so", plugin_name)`. -/
def plugin_path (plugin_name : CStr) : CStr :=
  ("./".toList ++ plugin_name ++ ".so".toList).take 255

/-- Lines 104-105: the name stored by `strncpy(.., plugin_name, MAX_ARG_LENGTH - 1)`
into a zeroed array. -/
def stored_name (plugin_name : CStr) : CStr := plugin_name.take (MAX_ARG_LENGTH - 1)

/-- The symbol name passed to `dlsym` on line 81. -/
def sym_init : CStr := "initialize".toList

/-- The symbol name passed to `dlsym` on line 96. -/
def sym_run : CStr := "run".toList

/-- The function `load_plugin` (lines 57-109): new state and return value. -/
def load_plugin (w : World) (s : Shell) (plugin_name : CStr) : Shell × Int :=
  if plugin_count s >= MAX_PLUGINS then
    (emit s Event.max_plugins_msg, -1)
  else
    let path := plugin_path plugin_name
    match find_plugin s.plugins plugin_name with
    | some _ =>
      ({ emit s (Event.init_failed_msg plugin_name) with should_suppress_prompt := true }, -1)
    | none =>
      let handle := w.dlopen path
      let s1 := emit s (Event.dlopen path)
      if handle = 0 then
        ({ emit s1 (Event.init_failed_msg plugin_name) with should_suppress_prompt := true }, -2)
      else
        let init := w.dlsym handle sym_init
        if w.dlerror handle sym_init then
          (emit (emit s1 Event.find_init_msg) (Event.dlclose handle), -3)
        else
          let s2 := emit s1 (Event.call_init init)
          if w.init_result init ≠ 0 then
            ({ emit (emit s2 (Event.init_failed_msg plugin_name)) (Event.dlclose handle)
                 with should_suppress_prompt := true }, -4)
          else
            let run := w.dlsym handle sym_run
            if w.dlerror handle sym_run then
              (emit (emit s2 Event.find_run_msg) (Event.dlclose handle), -5)
            else
              let new_plugin : Plugin :=
                { handle := handle, init := init, run := run,
                  name := stored_name plugin_name }
              ({ s2 with plugins := s2.plugins ++ [new_plugin],
                         should_suppress_prompt := true }, 0)

/-- The plugin a successful `load_plugin` builds (lines 104-105). -/
def new_plugin (w : World) (plugin_name : CStr) : Plugin :=
  { handle := w.dlopen (plugin_path plugin_name),
    init := w.dlsym (w.dlopen (plugin_path plugin_name)) sym_init,
    run := w.dlsym (w.dlopen (plugin_path plugin_name)) sym_run,
    name := stored_name plugin_name }

/-- How one step may change the registry: not at all, or by appending one
plugin built by `load_plugin` while there was room. -/
def Grows (s s1 : Shell) : Prop :=
  s1.plugins = s.plugins ∨
  (plugin_count s < MAX_PLUGINS ∧
    ∃ (w : World) (name : CStr), find_plugin s.plugins name = none ∧
      s1.plugins = s.plugins ++ [new_plugin w name])

/-! ## Dispatch (`handle_builtin`, `execute_command`, lines 112-162) -/

/-- The function `handle_builtin` (lines 112-130). -/
def handle_builtin (w : World) (s : Shell) (parsed : List CStr) : Ctl Int :=
  match parsed with
  | [] => Ctl.fault s
  | cmd :: rest =>
    if cmd = "exit".toList then
      Ctl.exit s 0
    else if cmd = "load".toList then
      match rest with
      | [] =>
        Ctl.ret { emit s Event.init_failed_123_msg with should_suppress_prompt := true } 1
      | plugin_name :: _ =>
        let r := load_plugin w s plugin_name
        if r.2 ≠ 0 then
          Ctl.ret { r.1 with should_suppress_prompt := true } 1
        else
          Ctl.ret r.1 1
    else
      Ctl.ret s 0

/-- Lines 143-161 of `execute_command`: `fork`, `execvp` in the child, wait in
the parent.  `EXIT_FAILURE` is 1. -/
def run_external (w : World) (s : Shell) (parsed : List CStr) : Ctl Unit :=
  if w.fork = -1 then
    Ctl.exit (emit s (Event.perror "fork".toList)) 1
  else
    Ctl.ret (emit s (Event.spawn parsed.head? parsed)) ()

/-- The function `execute_command` (lines 133-162). -/
def execute_command (w : World) (s : Shell) (parsed : List CStr) : Ctl Unit :=
  match parsed with
  | [] =>
    match s.plugins with
    | [] => run_external w s []
    | _ :: _ => Ctl.fault s
  | cmd :: _ =>
    match find_plugin s.plugins cmd with
    | some p => Ctl.ret (emit s (Event.call_run p.run parsed)) ()
    | none => run_external w s parsed

/-! ## Interactive loop (`main`, lines 170-213) -/

/-- Lines 200-202 of `main`: the generic path, `handle_builtin` and, when it
returns 0, `execute_command`. -/
def main_generic (w : World) (s : Shell) (parsed : List CStr) : Ctl Unit :=
  match handle_builtin w s parsed with
  | Ctl.ret s1 v => if v = 0 then execute_command w s1 parsed else Ctl.ret s1 ()
  | Ctl.exit s1 status => Ctl.exit s1 status
  | Ctl.fault s1 => Ctl.fault s1

/-- Lines 195-203 of `main`: the last loaded plugin is tried first, then the
generic path. -/
def main_dispatch (w : World) (s : Shell) (parsed : List CStr) : Ctl Unit :=
  match s.plugins.getLast? with
  | none => main_generic w s parsed                       -- plugin_count > 0 fails
  | some last =>
    match parsed with
    | [] => Ctl.fault s                                   -- strcmp(parsed[0], ..) on NULL
    | cmd :: _ =>
      if cmd = last.name then
        Ctl.ret { emit s (Event.call_run last.run parsed) with should_suppress_prompt := true } ()
      else
        main_generic w s parsed

/-- What `fgets` gives the loop: a line, end of file, or a read error. -/
inductive Read where
  | line (input : CStr)
  | eof
  | error
deriving DecidableEq, Repr

/-- One round of the `while (1)` loop of `main` (lines 176-209), with the
dispatch of lines 195-203 as a parameter.  The value returned is `true` when
the loop goes round again and `false` on `break`. -/
def main_iteration_with (dispatch : World → Shell → List CStr → Ctl Unit)
    (w : World) (s : Shell) (r : Read) : Ctl Bool :=
  let s1 := if !s.should_suppress_prompt then emit s Event.prompt else s
  let s2 := { s1 with should_suppress_prompt := false }
  match r with
  | Read.eof => Ctl.ret (emit s2 Event.newline) false
  | Read.error => Ctl.ret (emit s2 (Event.perror "fgets".toList)) true
  | Read.line input =>
    match dispatch w s2 (parse_input input).parsed with
    | Ctl.ret s3 _ => Ctl.ret { s3 with should_suppress_prompt := false } true
    | Ctl.exit s3 status => Ctl.exit s3 status
    | Ctl.fault s3 => Ctl.fault s3

/-- One round of the loop of `main` as written. -/
def main_iteration (w : World) (s : Shell) (r : Read) : Ctl Bool :=
  main_iteration_with main_dispatch w s r

/-- The loop of the spec's design note: the same round with the shortcut of
lines 195-197 dropped, so that every line takes the generic path. -/
def main_iteration_generic (w : World) (s : Shell) (r : Read) : Ctl Bool :=
  main_iteration_with main_generic w s r

/-- The states the loop of `main` can be in at the top of a round: the initial
state, and every state a round leaves behind when the loop goes on. -/
inductive Reachable : Shell → Prop
  | init : Reachable initial
  | step (w : World) (s : Shell) (r : Read) (s1 : Shell) (b : Bool)
      (hs : Reachable s) (hstep : main_iteration w s r = Ctl.ret s1 b) : Reachable s1

/-- Runs the loop over a list of reads, each with its own environment, and
stops at the first round that does not go on. -/
def run_loop : Shell → List (World × Read) → Ctl Bool
  | s, [] => Ctl.ret s true
  | s, (w, r) :: rest =>
    match main_iteration w s r with
    | Ctl.ret s1 true => run_loop s1 rest
    | other => other

/-- An environment in which every module opens, both symbols resolve and
`initialize` returns 0. -/
def world_ok : World :=
  { dlopen := fun _ => 1, dlsym := fun _ sym => sym.length, dlerror := fun _ _ => false,
    init_result := fun _ => 0, fork := 100 }

/-- Ten `load` lines with ten different names, each read in `world_ok`. -/
def ten_loads : List (World × Read) :=
  ["a", "b", "c", "d", "e", "f", "g", "h", "i", "j"].map
    (fun n => (world_ok, Read.line ("load ".toList ++ n.toList ++ "\n".toList)))

/-- The state of the loop after `ten_loads`: ten plugins are registered. -/
def full_shell : Shell :=
  match run_loop initial ten_loads with
  | Ctl.ret s _ => s
  | Ctl.exit s _ => s
  | Ctl.fault s => s

/-- The state of the loop after the single line `load exit` read in `world_ok`:
one plugin, stored under the name `exit`. -/
def exit_shell : Shell :=
  { plugins := [{ handle := 1, init := 10, run := 3, name := "exit".toList }],
    should_suppress_prompt := false,
    trace := [Event.prompt, Event.dlopen "./exit.so".toList, Event.call_init 10] }

/-- The state of the loop after the line `load aaaaaaaaaaaaaaaaaaaa` (20
characters) read twice in `world_ok`. -/
def twice_shell : Shell :=
  { plugins := [{ handle := 1, init := 10, run := 3, name := List.replicate 19 'a' },
                { handle := 1, init := 10, run := 3, name := List.replicate 19 'a' }],
    should_suppress_prompt := false,
    trace := [Event.prompt,
              Event.dlopen ("./".toList ++ List.replicate 20 'a' ++ ".so".toList),
              Event.call_init 10,
              Event.prompt,
              Event.dlopen ("./".toList ++ List.replicate 20 'a' ++ ".so".toList),
              Event.call_init 10] }

/-- The state of the loop after the first nine lines of `ten_loads`. -/
def nine_shell : Shell :=
  match run_loop initial (ten_loads.take 9) with
  | Ctl.ret s _ => s
  | Ctl.exit s _ => s
  | Ctl.fault s => s

/-- The loop invariant of `parse_input` on its bookkeeping: the capacity is
positive, `index` counts the strings stored and does not exceed the capacity,
and every store logged so far went to a slot below the capacity of the time. -/
def SlotsOk (st : ParseState) : Prop :=
  0 < st.size ∧ st.index ≤ st.size ∧ st.index = st.parsed.length ∧
    ∀ w ∈ st.writes, w.1 < w.2

/-- A line of exactly ten tokens. -/
def ten_tokens : CStr := "a b c d e f g h i j\n".toList

/-- A line of exactly twenty tokens. -/
def twenty_tokens : CStr := "a b c d e f g h i j k l m n o p q r s t\n".toList

/-- An environment in which no module can be opened. -/
def world_none : World :=
  { dlopen := fun _ => 0, dlsym := fun _ _ => 0, dlerror := fun _ _ => true,
    init_result := fun _ => 1, fork := 100 }

/-! ## Tokenizer: lemmas -/

theorem is_delim_iff (c : Char) : is_delim [' ', '\n'] c = true ↔ (c = ' ' ∨ c = '\n') := by
  simp [is_delim, List.contains, List.elem_cons, List.elem_nil]

theorem not_is_delim_iff (c : Char) :
    (!is_delim [' ', '\n'] c) = true ↔ (c ≠ ' ' ∧ c ≠ '\n') := by
  rw [Bool.not_eq_true', ← Bool.not_eq_true, is_delim_iff]
  push_neg
  rfl

theorem dropWhile_gap {p : Char → Bool} (gap l : CStr) (h : ∀ c ∈ gap, p c = true) :
    (gap ++ l).dropWhile p = l.dropWhile p := by
  induction gap with
  | nil => rfl
  | cons a as ih =>
    have ha : p a = true := h a (List.mem_cons_self a as)
    simp only [List.cons_append, List.dropWhile_cons, ha, if_true]
    exact ih (fun c hc => h c (List.mem_cons_of_mem a hc))

theorem span_tok {p : Char → Bool} (tok rest : CStr) (h : ∀ c ∈ tok, p c = true)
    (hrest : rest = [] ∨ ∃ d r, rest = d :: r ∧ p d = false) :
    (tok ++ rest).takeWhile p = tok ∧ (tok ++ rest).dropWhile p = rest := by
  induction tok with
  | nil =>
    rcases hrest with h0 | ⟨d, r, h1, h2⟩
    · subst h0; simp
    · subst h1; simp [List.takeWhile_cons, List.dropWhile_cons, h2]
  | cons a as ih =>
    have ha : p a = true := h a (List.mem_cons_self a as)
    have ih1 := ih (fun c hc => h c (List.mem_cons_of_mem a hc))
    simp only [List.cons_append, List.takeWhile_cons, List.dropWhile_cons, ha, if_true]
    exact ⟨by rw [ih1.1], ih1.2⟩

theorem strtok_gap (gap : CStr) (h : ∀ c ∈ gap, c = ' ' ∨ c = '\n') :
    strtok gap [' ', '\n'] = (none, []) := by
  have h1 : gap.dropWhile (is_delim [' ', '\n']) = [] := by
    rw [List.dropWhile_eq_nil_iff]
    intro c hc
    exact (is_delim_iff c).2 (h c hc)
  simp only [strtok, h1]

theorem strtok_skip (d : Char) (r : CStr) (h : d = ' ' ∨ d = '\n') :
    strtok (d :: r) [' ', '\n'] = strtok r [' ', '\n'] := by
  have hd : is_delim [' ', '\n'] d = true := (is_delim_iff d).2 h
  simp only [strtok, List.dropWhile_cons, hd, if_true]

theorem strtok_token (gap tok rest : CStr)
    (hgap : ∀ c ∈ gap, c = ' ' ∨ c = '\n') (hne : tok ≠ [])
    (htok : ∀ c ∈ tok, c ≠ ' ' ∧ c ≠ '\n')
    (hrest : rest = [] ∨ ∃ d r, rest = d :: r ∧ (d = ' ' ∨ d = '\n')) :
    strtok (gap ++ tok ++ rest) [' ', '\n'] = (some tok, rest.tail) := by
  have h1 : (gap ++ tok ++ rest).dropWhile (is_delim [' ', '\n'])
      = (tok ++ rest).dropWhile (is_delim [' ', '\n']) := by
    rw [List.append_assoc]
    exact dropWhile_gap gap (tok ++ rest) (fun c hc => (is_delim_iff c).2 (hgap c hc))
  obtain ⟨a, as, rfl⟩ := List.exists_cons_of_ne_nil hne
  have ha : is_delim [' ', '\n'] a = false := by
    have := (not_is_delim_iff a).2 (htok a (List.mem_cons_self a as))
    simpa using this
  have hsp := span_tok (p := fun x => !is_delim [' ', '\n'] x) (a :: as) rest
    (fun c hc => (not_is_delim_iff c).2 (htok c hc))
    (by
      rcases hrest with h0 | ⟨d, r, h2, h3⟩
      · exact Or.inl h0
      · exact Or.inr ⟨d, r, h2, by simp [(is_delim_iff d).2 h3]⟩)
  have h2 : (gap ++ (a :: as) ++ rest).dropWhile (is_delim [' ', '\n']) = a :: (as ++ rest) := by
    rw [h1]
    simp only [List.cons_append, List.dropWhile_cons, ha]
    rfl
  have h3 : (a :: (as ++ rest)).takeWhile (fun x => !is_delim [' ', '\n'] x) = a :: as := hsp.1
  have h4 : (a :: (as ++ rest)).dropWhile (fun x => !is_delim [' ', '\n'] x) = rest := hsp.2
  simp only [strtok, h2, h3, h4]
  cases rest <;> rfl

theorem parse_loop_none (fuel : Nat) (saved : CStr) (st : ParseState) :
    parse_loop fuel none saved st = st := by
  cases fuel <;> rfl

/-- Completeness of the loop against the specification: with fuel above the
length of the line, the loop appends exactly the tokens of the line. -/
theorem parse_loop_spec (s : CStr) (ts : List CStr) (h : Tokenization s ts) :
    ∀ (fuel : Nat) (st : ParseState), s.length < fuel →
      (parse_loop fuel (strtok s [' ', '\n']).1 (strtok s [' ', '\n']).2 st).parsed
        = st.parsed ++ ts := by
  induction h with
  | done gap hgap =>
    intro fuel st _
    rw [strtok_gap gap hgap, parse_loop_none]
    simp
  | token gap tok rest toks hgap hne htok hrest _ ih =>
    intro fuel st hfuel
    rw [strtok_token gap tok rest hgap hne htok hrest]
    have htl : 0 < tok.length := List.length_pos.2 hne
    simp only [List.length_append] at hfuel
    obtain ⟨f, rfl⟩ : ∃ f, fuel = f + 1 := ⟨fuel - 1, by omega⟩
    have hnext : strtok rest.tail [' ', '\n'] = strtok rest [' ', '\n'] := by
      rcases hrest with h0 | ⟨d, r, h1, h2⟩
      · subst h0; rfl
      · subst h1; exact (strtok_skip d r h2).symm
    simp only [parse_loop, hnext]
    rw [ih f (store_token (grow st) tok) (by omega)]
    have hp : (store_token (grow st) tok).parsed = st.parsed ++ [tok] := by
      unfold store_token grow
      split <;> rfl
    rw [hp, List.append_assoc]
    rfl

/-- Every line has a tokenization. -/
theorem tokenization_exists : ∀ (n : Nat) (s : CStr), s.length ≤ n → ∃ ts, Tokenization s ts := by
  intro n
  induction n with
  | zero =>
    intro s hs
    have : s = [] := List.length_eq_zero.1 (Nat.le_zero.1 hs)
    subst this
    exact ⟨[], Tokenization.done [] (by simp)⟩
  | succ n ih =>
    intro s hs
    have hsplit := List.takeWhile_append_dropWhile (is_delim [' ', '\n']) s
    have hgap : ∀ c ∈ s.takeWhile (is_delim [' ', '\n']), c = ' ' ∨ c = '\n' :=
      fun c hc => (is_delim_iff c).1 (List.mem_takeWhile_imp hc)
    rcases hs1 : s.dropWhile (is_delim [' ', '\n']) with _ | ⟨a, as⟩
    · rw [hs1, List.append_nil] at hsplit
      rw [← hsplit]
      exact ⟨[], Tokenization.done _ hgap⟩
    · have ha : is_delim [' ', '\n'] a = false := by
        have := List.head_dropWhile_not (is_delim [' ', '\n']) s (by simp [hs1])
        simpa [hs1] using this
      have hsplit2 := List.takeWhile_append_dropWhile (fun x => !is_delim [' ', '\n'] x) (a :: as)
      have htok : ∀ c ∈ (a :: as).takeWhile (fun x => !is_delim [' ', '\n'] x),
          c ≠ ' ' ∧ c ≠ '\n' :=
        fun c hc => (not_is_delim_iff c).1
          (List.mem_takeWhile_imp (p := fun x => !is_delim [' ', '\n'] x) hc)
      have hne : (a :: as).takeWhile (fun x => !is_delim [' ', '\n'] x) ≠ [] := by
        simp [List.takeWhile_cons, ha]
      have hrest : (a :: as).dropWhile (fun x => !is_delim [' ', '\n'] x) = [] ∨
          ∃ d r, (a :: as).dropWhile (fun x => !is_delim [' ', '\n'] x) = d :: r ∧
            (d = ' ' ∨ d = '\n') := by
        rcases hr : (a :: as).dropWhile (fun x => !is_delim [' ', '\n'] x) with _ | ⟨d, r⟩
        · exact Or.inl rfl
        · refine Or.inr ⟨d, r, rfl, ?_⟩
          have := List.head_dropWhile_not (fun x => !is_delim [' ', '\n'] x) (a :: as)
            (by simp [hr])
          simp only [hr, List.head_cons] at this
          exact (is_delim_iff d).1 (by simpa using this)
      have hlen : ((a :: as).dropWhile (fun x => !is_delim [' ', '\n'] x)).length ≤ n := by
        have h1 := congrArg List.length hsplit
        have h2 := congrArg List.length hsplit2
        have h3 := List.length_pos.2 hne
        simp only [List.length_append, hs1] at h1 h2
        omega
      obtain ⟨ts, hts⟩ := ih _ hlen
      refine ⟨(a :: as).takeWhile (fun x => !is_delim [' ', '\n'] x) :: ts, ?_⟩
      have := Tokenization.token _ _ _ ts hgap hne htok hrest hts
      have e : s.takeWhile (is_delim [' ', '\n'])
          ++ (a :: as).takeWhile (fun x => !is_delim [' ', '\n'] x)
          ++ (a :: as).dropWhile (fun x => !is_delim [' ', '\n'] x) = s := by
        rw [List.append_assoc, hsplit2, ← hs1, hsplit]
      rw [e] at this
      exact this

theorem tokenization_tokens (s : CStr) (ts : List CStr) (h : Tokenization s ts) :
    ∀ t ∈ ts, t ≠ [] ∧ ∀ c ∈ t, c ≠ ' ' ∧ c ≠ '\n' := by
  induction h with
  | done gap hgap => intro t ht; cases ht
  | token gap tok rest toks hgap hne htok hrest _ ih =>
    intro t ht
    rcases List.mem_cons.1 ht with h1 | h1
    · subst h1; exact ⟨hne, htok⟩
    · exact ih t h1

theorem parse_input_parsed (input : CStr) (ts : List CStr) (h : Tokenization input ts) :
    (parse_input input).parsed = ts := by
  have := parse_loop_spec input ts h (input.length + 1)
    { size := 10, index := 0, parsed := [], writes := [] } (Nat.lt_succ_self _)
  simpa [parse_input] using this

theorem store_grow_slots (st : ParseState) (token : CStr) (h : SlotsOk st) :
    SlotsOk (store_token (grow st) token) := by
  obtain ⟨h0, h1, h2, h3⟩ := h
  unfold store_token grow
  split_ifs with hge
  · refine ⟨by simp only; omega, by simp only; omega, by simp [h2], ?_⟩
    intro w hw
    simp only [List.mem_append, List.mem_singleton] at hw
    rcases hw with hw | hw
    · exact h3 w hw
    · subst hw; simp only; omega
  · refine ⟨h0, by simp only; omega, by simp [h2], ?_⟩
    intro w hw
    simp only [List.mem_append, List.mem_singleton] at hw
    rcases hw with hw | hw
    · exact h3 w hw
    · subst hw; simp only; omega

theorem parse_loop_slots : ∀ (fuel : Nat) (token : Option CStr) (saved : CStr)
    (st : ParseState), SlotsOk st → SlotsOk (parse_loop fuel token saved st) := by
  intro fuel
  induction fuel with
  | zero => intro token saved st h; exact h
  | succ f ih =>
    intro token saved st h
    cases token with
    | none => exact h
    | some tok =>
      simp only [parse_loop]
      exact ih _ _ _ (store_grow_slots st tok h)

theorem store_grow_order (st : ParseState) (token : CStr)
    (h : st.writes.map Prod.fst = List.range st.index) :
    (store_token (grow st) token).writes.map Prod.fst
      = List.range (store_token (grow st) token).index := by
  unfold store_token grow
  split_ifs <;> simp [List.range_succ, h]

theorem parse_loop_order : ∀ (fuel : Nat) (token : Option CStr) (saved : CStr)
    (st : ParseState), st.writes.map Prod.fst = List.range st.index →
      (parse_loop fuel token saved st).writes.map Prod.fst
        = List.range (parse_loop fuel token saved st).index := by
  intro fuel
  induction fuel with
  | zero => intro token saved st h; exact h
  | succ f ih =>
    intro token saved st h
    cases token with
    | none => exact h
    | some tok =>
      simp only [parse_loop]
      exact ih _ _ _ (store_grow_order st tok h)

/-- C1: for every input line, the strings `parse_input` returns are exactly the
maximal non-empty substrings of the line without a space or a newline, left to
right (they form the one tokenization of the line); none is empty, none holds
a delimiter, and "echo  a   b\n" gives "echo", "a", "b".  The tokens are stored
in the array itself: token number i goes to slot i, and every one of these
stores goes to a slot below the capacity the array has at that time (the
array is grown before a token that would not fit).  The one store left is the
NULL terminator, at the slot after the last token, which is at most the
capacity; when the tokens are fewer than the capacity, every store of
`parse_input` is inside the array. -/
theorem parse_input_tokens (line : CStr) :
    Tokenization line (parse_input line).parsed ∧
    (∀ ts, Tokenization line ts → ts = (parse_input line).parsed) ∧
    (∀ t ∈ (parse_input line).parsed, t ≠ [] ∧ ∀ c ∈ t, c ≠ ' ' ∧ c ≠ '\n') ∧
    (∃ stores, (parse_input line).writes
        = stores ++ [((parse_input line).parsed.length, (parse_input line).size)] ∧
      stores.map Prod.fst = List.range (parse_input line).parsed.length ∧
      (∀ w ∈ stores, w.1 < w.2) ∧
      (parse_input line).parsed.length ≤ (parse_input line).size) ∧
    ((parse_input line).parsed.length < (parse_input line).size →
      ∀ w ∈ (parse_input line).writes, w.1 < w.2) ∧
    (parse_input "echo  a   b\n".toList).parsed = ["echo".toList, "a".toList, "b".toList] ∧
    (parse_input "echo  a   b\n".toList).writes = [(0, 10), (1, 10), (2, 10), (3, 10)] := by
  obtain ⟨ts, hts⟩ := tokenization_exists line.length line (Nat.le_refl _)
  have heq := parse_input_parsed line ts hts
  have hslots := parse_loop_slots (line.length + 1) (strtok line [' ', '\n']).1
    (strtok line [' ', '\n']).2 { size := 10, index := 0, parsed := [], writes := [] }
    ⟨by decide, by decide, rfl, fun w hw => absurd hw (List.not_mem_nil w)⟩
  have horder := parse_loop_order (line.length + 1) (strtok line [' ', '\n']).1
    (strtok line [' ', '\n']).2 { size := 10, index := 0, parsed := [], writes := [] } rfl
  obtain ⟨_, h1, h2, h3⟩ := hslots
  have hstores : ∃ stores, (parse_input line).writes
        = stores ++ [((parse_input line).parsed.length, (parse_input line).size)] ∧
      stores.map Prod.fst = List.range (parse_input line).parsed.length ∧
      (∀ w ∈ stores, w.1 < w.2) ∧
      (parse_input line).parsed.length ≤ (parse_input line).size := by
    refine ⟨_, ?_, ?_, h3, ?_⟩
    · simp only [parse_input, h2]
    · simp only [parse_input]
      rw [horder, h2]
    · simp only [parse_input]
      omega
  refine ⟨heq ▸ hts, fun ts1 h1 => (parse_input_parsed line ts1 h1).symm, ?_, hstores, ?_,
    by decide, by decide⟩
  · rw [heq]
    exact tokenization_tokens line ts hts
  · intro hlt w hw
    obtain ⟨stores, e, _, hin, _⟩ := hstores
    rw [e] at hw
    simp only [List.mem_append, List.mem_singleton] at hw
    rcases hw with hw | hw
    · exact hin w hw
    · subst hw; exact hlt

/-- The scenario of C1: the three tokens of "echo  a   b\n" are fewer than the
capacity 10, so all four stores are inside the array. -/
theorem parse_input_tokens_witness :
    (parse_input "echo  a   b\n".toList).parsed.length
      < (parse_input "echo  a   b\n".toList).size ∧
    ∀ w ∈ (parse_input "echo  a   b\n".toList).writes, w.1 < w.2 :=
  ⟨by decide, (parse_input_tokens "echo  a   b\n".toList).2.2.2.2.1 (by decide)⟩

/-! ## Registry: lemmas -/

theorem load_plugin_ok (w : World) (s : Shell) (name : CStr)
    (h : (load_plugin w s name).2 = 0) :
    plugin_count s < MAX_PLUGINS ∧ find_plugin s.plugins name = none ∧
    (load_plugin w s name).1 =
      { plugins := s.plugins ++ [new_plugin w name],
        should_suppress_prompt := true,
        trace := s.trace ++ [Event.dlopen (plugin_path name),
                             Event.call_init (new_plugin w name).init] } := by
  unfold load_plugin at h ⊢
  split_ifs at h ⊢ with h1
  · simp at h
  · split at h
    · simp at h
    · rename_i hfind
      simp only [hfind] at h ⊢
      split_ifs at h ⊢ <;> simp at h
      refine ⟨by omega, trivial, ?_⟩
      simp [emit, new_plugin]

theorem load_plugin_fail (w : World) (s : Shell) (name : CStr)
    (h : (load_plugin w s name).2 ≠ 0) :
    (load_plugin w s name).1.plugins = s.plugins := by
  unfold load_plugin at h ⊢
  split_ifs at h ⊢ with h1
  · rfl
  · split at h
    · rename_i hfind
      simp only [hfind]
      rfl
    · rename_i hfind
      simp only [hfind] at h ⊢
      split_ifs at h ⊢ <;> simp [emit] at h ⊢

theorem load_plugin_grows (w : World) (s : Shell) (name : CStr) :
    Grows s (load_plugin w s name).1 := by
  by_cases h : (load_plugin w s name).2 = 0
  · obtain ⟨h1, h2, h3⟩ := load_plugin_ok w s name h
    exact Or.inr ⟨h1, w, name, h2, by rw [h3]⟩
  · exact Or.inl (load_plugin_fail w s name h)

/-! ## Dispatch and loop: lemmas -/

theorem handle_builtin_grows (w : World) (s s1 : Shell) (parsed : List CStr) (v : Int)
    (h : handle_builtin w s parsed = Ctl.ret s1 v) : Grows s s1 := by
  unfold handle_builtin at h
  split at h
  · cases h
  · split_ifs at h with h1 h2
    · split at h
      · cases h; exact Or.inl rfl
      · rename_i name rest
        simp only at h
        split_ifs at h <;> cases h <;> exact load_plugin_grows w s name
    · cases h; exact Or.inl rfl

theorem run_external_plugins (w : World) (s s1 : Shell) (parsed : List CStr)
    (h : run_external w s parsed = Ctl.ret s1 ()) : s1.plugins = s.plugins := by
  unfold run_external at h
  split_ifs at h
  cases h; rfl

theorem execute_command_plugins (w : World) (s s1 : Shell) (parsed : List CStr)
    (h : execute_command w s parsed = Ctl.ret s1 ()) : s1.plugins = s.plugins := by
  unfold execute_command at h
  split at h
  · split at h
    · exact run_external_plugins w s s1 [] h
    · cases h
  · split at h
    · cases h; rfl
    · exact run_external_plugins w s s1 _ h

theorem main_generic_grows (w : World) (s s1 : Shell) (parsed : List CStr)
    (h : main_generic w s parsed = Ctl.ret s1 ()) : Grows s s1 := by
  unfold main_generic at h
  split at h
  · rename_i s2 v hb
    have hg := handle_builtin_grows w s s2 _ v hb
    split_ifs at h
    · have := execute_command_plugins w s2 s1 _ h
      unfold Grows at hg ⊢
      rw [this]; exact hg
    · cases h; exact hg
  · cases h
  · cases h

theorem main_dispatch_grows (w : World) (s s1 : Shell) (parsed : List CStr)
    (h : main_dispatch w s parsed = Ctl.ret s1 ()) : Grows s s1 := by
  unfold main_dispatch at h
  split at h
  · exact main_generic_grows w s s1 parsed h
  · split at h
    · cases h
    · split_ifs at h
      · cases h; exact Or.inl rfl
      · exact main_generic_grows w s s1 _ h

theorem main_iteration_grows (w : World) (s s1 : Shell) (r : Read) (b : Bool)
    (h : main_iteration w s r = Ctl.ret s1 b) : Grows s s1 := by
  unfold main_iteration main_iteration_with at h
  cases r with
  | eof => simp only at h; cases h; split_ifs <;> exact Or.inl rfl
  | error => simp only at h; cases h; split_ifs <;> exact Or.inl rfl
  | line input =>
    simp only at h
    split at h
    · rename_i s3 u hd
      cases h
      have hg := main_dispatch_grows w _ s3 _ hd
      unfold Grows plugin_count at hg ⊢
      split_ifs at hg <;> exact hg
    · cases h
    · cases h

theorem reachable_count : ∀ s, Reachable s → plugin_count s ≤ MAX_PLUGINS := by
  intro s hs
  induction hs with
  | init => decide
  | step w s r s1 b _ hstep ih =>
    rcases main_iteration_grows w s s1 r b hstep with h | ⟨h1, _, _, _, h2⟩
    · unfold plugin_count at ih ⊢; rw [h]; exact ih
    · unfold plugin_count at h1 ⊢; rw [h2]; simp; omega

theorem run_loop_reachable : ∀ (l : List (World × Read)) (s s1 : Shell) (b : Bool),
    Reachable s → run_loop s l = Ctl.ret s1 b → Reachable s1 := by
  intro l
  induction l with
  | nil =>
    intro s s1 b hs h
    simp only [run_loop] at h
    cases h
    exact hs
  | cons x rest ih =>
    intro s s1 b hs h
    obtain ⟨w, r⟩ := x
    simp only [run_loop] at h
    split at h
    · rename_i s2 hstep
      exact ih s2 s1 b (Reachable.step w s r s2 true hs hstep) h
    · rename_i other hne
      cases hstep : main_iteration w s r with
      | ret s2 v =>
        rw [hstep] at h
        cases h
        exact Reachable.step w s r s1 b hs hstep
      | exit s2 st => rw [hstep] at h; cases h
      | fault s2 => rw [hstep] at h; cases h

theorem full_shell_reachable : Reachable full_shell :=
  run_loop_reachable ten_loads initial full_shell true Reachable.init (by decide)

theorem load_plugin_full (w : World) (s : Shell) (name : CStr)
    (h : MAX_PLUGINS ≤ plugin_count s) :
    load_plugin w s name = (emit s Event.max_plugins_msg, -1) := by
  unfold load_plugin
  rw [if_pos h]

theorem load_plugin_dup (w : World) (s : Shell) (name : CStr) (p : Plugin)
    (h : plugin_count s < MAX_PLUGINS) (hf : find_plugin s.plugins name = some p) :
    load_plugin w s name =
      ({ emit s (Event.init_failed_msg name) with should_suppress_prompt := true }, -1) := by
  unfold load_plugin
  rw [if_neg (by omega)]
  simp only [hf]

theorem load_plugin_ok_iff (w : World) (s : Shell) (name : CStr) :
    (load_plugin w s name).2 = 0 ↔
      (plugin_count s < MAX_PLUGINS ∧ find_plugin s.plugins name = none ∧
        w.dlopen (plugin_path name) ≠ 0 ∧
        w.dlerror (w.dlopen (plugin_path name)) sym_init = false ∧
        w.init_result (w.dlsym (w.dlopen (plugin_path name)) sym_init) = 0 ∧
        w.dlerror (w.dlopen (plugin_path name)) sym_run = false) := by
  unfold load_plugin
  by_cases h1 : plugin_count s ≥ MAX_PLUGINS
  · rw [if_pos h1]
    simp only [Int.reduceNeg, Int.neg_eq_zero, one_ne_zero, false_iff, not_and]
    intro h; omega
  · rw [if_neg h1]
    cases hf : find_plugin s.plugins name with
    | some p => simp
    | none =>
      simp only
      split_ifs <;> simp_all

theorem stored_name_short (name : CStr) (h : name.length ≤ 19) : stored_name name = name := by
  unfold stored_name MAX_ARG_LENGTH
  exact List.take_of_length_le h

theorem find_plugin_append_new (ps : List Plugin) (p : Plugin) (name : CStr)
    (hp : p.name = name) : ∃ q, find_plugin (ps ++ [p]) name = some q := by
  unfold find_plugin
  rw [List.find?_append]
  cases h : List.find? (fun q => q.name == name) ps with
  | some q => exact ⟨q, rfl⟩
  | none => exact ⟨p, by simp [List.find?_cons, hp]⟩

theorem main_dispatch_last (w : World) (s : Shell) (last : Plugin) (args : List CStr)
    (hl : s.plugins.getLast? = some last) :
    main_dispatch w s (last.name :: args) =
      Ctl.ret { emit s (Event.call_run last.run (last.name :: args))
                  with should_suppress_prompt := true } () := by
  unfold main_dispatch
  simp only [hl, if_true]

theorem handle_builtin_load (w : World) (s : Shell) (name : CStr) (rest : List CStr) :
    handle_builtin w s ("load".toList :: name :: rest) =
      Ctl.ret { (load_plugin w s name).1 with should_suppress_prompt := true } 1 := by
  have e : handle_builtin w s ("load".toList :: name :: rest) =
      if (load_plugin w s name).2 ≠ 0 then
        Ctl.ret { (load_plugin w s name).1 with should_suppress_prompt := true } 1
      else Ctl.ret (load_plugin w s name).1 1 := rfl
  rw [e]
  split_ifs with h
  · rfl
  · have h0 : (load_plugin w s name).2 = 0 := by simpa using h
    obtain ⟨_, _, h3⟩ := load_plugin_ok w s name h0
    rw [h3]

/-- C2 (amended): when `load name` fully succeeds for a name of at most 19
characters, the registry afterwards is the previous registry with exactly one
entry appended, whose name is `name`; and in every later state with that
registry an input line whose first token is `name` makes the loop call that
entry's `run` with all tokens of the line. -/
theorem load_then_invoke (w : World) (s : Shell) (name : CStr)
    (h : (load_plugin w s name).2 = 0) (hlen : name.length ≤ 19) :
    (load_plugin w s name).1.plugins = s.plugins ++ [new_plugin w name] ∧
    (new_plugin w name).name = name ∧
    ∀ (w1 : World) (s1 : Shell) (line : CStr) (args : List CStr),
      s1.plugins = (load_plugin w s name).1.plugins →
      (parse_input line).parsed = name :: args →
      main_iteration w1 s1 (Read.line line) =
        Ctl.ret { plugins := s1.plugins, should_suppress_prompt := false,
                  trace := s1.trace ++ (if s1.should_suppress_prompt then [] else [Event.prompt])
                    ++ [Event.call_run (new_plugin w name).run (name :: args)] } true := by
  obtain ⟨_, _, h3⟩ := load_plugin_ok w s name h
  have hname : (new_plugin w name).name = name := stored_name_short name hlen
  refine ⟨by rw [h3], hname, ?_⟩
  intro w1 s1 line args hp hargs
  rw [h3] at hp
  simp only at hp
  unfold main_iteration main_iteration_with
  simp only [hargs]
  have hlast : ∀ s2 : Shell, s2.plugins = s1.plugins →
      s2.plugins.getLast? = some (new_plugin w name) := by
    intro s2 h2
    rw [h2, hp, List.getLast?_append]
    rfl
  have hd : ∀ s2 : Shell, s2.plugins = s1.plugins →
      main_dispatch w1 s2 (name :: args) =
        Ctl.ret { emit s2 (Event.call_run (new_plugin w name).run (name :: args))
                    with should_suppress_prompt := true } () := by
    intro s2 h2
    have := main_dispatch_last w1 s2 (new_plugin w name) args (hlast s2 h2)
    rw [hname] at this
    exact this
  cases hflag : s1.should_suppress_prompt
  · rw [hd _ (by simp [emit])]
    simp [emit]
  · rw [hd _ (by simp)]
    simp [emit]

/-- The scenario of C2: `load greet` succeeds, and `greet hello` then calls its `run`. -/
theorem load_then_invoke_witness :
    (load_plugin world_ok initial "greet".toList).2 = 0 ∧ "greet".toList.length ≤ 19 ∧
    (load_plugin world_ok initial "greet".toList).1.plugins
      = initial.plugins ++ [new_plugin world_ok "greet".toList] ∧
    (new_plugin world_ok "greet".toList).name = "greet".toList ∧
    main_iteration world_ok (load_plugin world_ok initial "greet".toList).1
        (Read.line "greet hello\n".toList) =
      Ctl.ret { plugins := (load_plugin world_ok initial "greet".toList).1.plugins,
                should_suppress_prompt := false,
                trace := (load_plugin world_ok initial "greet".toList).1.trace ++ [] ++
                  [Event.call_run 3 ["greet".toList, "hello".toList]] } true :=
  ⟨by decide, by decide,
   (load_then_invoke world_ok initial "greet".toList (by decide) (by decide)).1,
   (load_then_invoke world_ok initial "greet".toList (by decide) (by decide)).2.1,
   (load_then_invoke world_ok initial "greet".toList (by decide) (by decide)).2.2 world_ok
     (load_plugin world_ok initial "greet".toList).1 "greet hello\n".toList ["hello".toList]
     rfl (by decide)⟩

/-- C2 as stated fails for a name of 20 characters: the load succeeds, the entry
appended does not carry that name, and the next line with that name as its
first token starts an external program instead of the entry's `run`. -/
theorem load_long_name_counterexample :
    (load_plugin world_ok initial (List.replicate 20 'a')).2 = 0 ∧
    (load_plugin world_ok initial (List.replicate 20 'a')).1.plugins
      = [{ handle := 1, init := 10, run := 3, name := List.replicate 19 'a' }] ∧
    run_loop initial
        [(world_ok, Read.line ("load ".toList ++ List.replicate 20 'a' ++ "\n".toList)),
         (world_ok, Read.line (List.replicate 20 'a' ++ " hello\n".toList))] =
      Ctl.ret { plugins := [{ handle := 1, init := 10, run := 3, name := List.replicate 19 'a' }],
                should_suppress_prompt := false,
                trace := [Event.prompt,
                          Event.dlopen ("./".toList ++ List.replicate 20 'a' ++ ".so".toList),
                          Event.call_init 10,
                          Event.prompt,
                          Event.spawn (some (List.replicate 20 'a'))
                            [List.replicate 20 'a', "hello".toList]] } true := by
  decide

theorem load_plugin_minus_one (w : World) (s : Shell) (name : CStr)
    (h : (load_plugin w s name).2 = -1) :
    (load_plugin w s name).1.plugins = s.plugins ∧
    (MAX_PLUGINS ≤ plugin_count s ∨ ∃ q, find_plugin s.plugins name = some q) := by
  refine ⟨load_plugin_fail w s name (by rw [h]; decide), ?_⟩
  by_cases hfull : MAX_PLUGINS ≤ plugin_count s
  · exact Or.inl hfull
  · cases hf : find_plugin s.plugins name with
    | some q => exact Or.inr ⟨q, rfl⟩
    | none =>
      exfalso
      unfold load_plugin at h
      rw [if_neg hfull] at h
      simp only [hf] at h
      split_ifs at h <;> simp at h

theorem load_plugin_rejected (w : World) (t : Shell) (name : CStr)
    (h : MAX_PLUGINS ≤ plugin_count t ∨ ∃ q, find_plugin t.plugins name = some q) :
    (plugin_count t < MAX_PLUGINS →
      load_plugin w t name =
        ({ plugins := t.plugins, should_suppress_prompt := true,
           trace := t.trace ++ [Event.init_failed_msg name] }, -1)) ∧
    (MAX_PLUGINS ≤ plugin_count t →
      load_plugin w t name =
        ({ plugins := t.plugins, should_suppress_prompt := t.should_suppress_prompt,
           trace := t.trace ++ [Event.max_plugins_msg] }, -1)) := by
  constructor
  · intro hlt
    rcases h with h | ⟨q, hq⟩
    · omega
    · rw [load_plugin_dup w t name q hlt hq]
      rfl
  · intro hge
    rw [load_plugin_full w t name hge]
    rfl

theorem main_dispatch_not_last (w : World) (t : Shell) (cmd : CStr) (rest : List CStr)
    (h : ∀ last, t.plugins.getLast? = some last → last.name ≠ cmd) :
    main_dispatch w t (cmd :: rest) = main_generic w t (cmd :: rest) := by
  unfold main_dispatch
  cases hl : t.plugins.getLast? with
  | none => rfl
  | some last =>
    have hne : ¬ cmd = last.name := fun e => h last hl e.symm
    simp only [hne, if_false]

theorem main_generic_load (w : World) (t : Shell) (name : CStr) (rest : List CStr) :
    main_generic w t ("load".toList :: name :: rest) =
      Ctl.ret { (load_plugin w t name).1 with should_suppress_prompt := true } () := by
  unfold main_generic
  rw [handle_builtin_load]
  rfl

theorem main_iteration_load_rejected (w : World) (t : Shell) (line name : CStr)
    (rest : List CStr)
    (hargs : (parse_input line).parsed = "load".toList :: name :: rest)
    (hlast : ∀ last, t.plugins.getLast? = some last → last.name ≠ "load".toList)
    (hreg : MAX_PLUGINS ≤ plugin_count t ∨ ∃ q, find_plugin t.plugins name = some q) :
    main_iteration w t (Read.line line) =
      Ctl.ret { plugins := t.plugins, should_suppress_prompt := false,
                trace := t.trace ++ (if t.should_suppress_prompt then [] else [Event.prompt])
                  ++ [if plugin_count t < MAX_PLUGINS then Event.init_failed_msg name
                      else Event.max_plugins_msg] } true := by
  have key : ∀ t2 : Shell, t2.plugins = t.plugins →
      main_dispatch w t2 ("load".toList :: name :: rest) =
        Ctl.ret { plugins := t.plugins, should_suppress_prompt := true,
                  trace := t2.trace ++ [if plugin_count t < MAX_PLUGINS
                    then Event.init_failed_msg name else Event.max_plugins_msg] } () := by
    intro t2 h2
    have hreg2 : MAX_PLUGINS ≤ plugin_count t2 ∨ ∃ q, find_plugin t2.plugins name = some q := by
      unfold plugin_count at hreg ⊢
      rw [h2]
      exact hreg
    have hcount : plugin_count t2 = plugin_count t := by
      unfold plugin_count
      rw [h2]
    rw [main_dispatch_not_last w t2 _ _ (by rw [h2]; exact hlast), main_generic_load]
    have hr := load_plugin_rejected w t2 name hreg2
    by_cases hfull : MAX_PLUGINS ≤ plugin_count t2
    · rw [hr.2 hfull, if_neg (by omega)]
      simp only [h2]
    · rw [hr.1 (by omega), if_pos (by omega)]
      simp only [h2]
  unfold main_iteration main_iteration_with
  simp only [hargs]
  cases hflag : t.should_suppress_prompt
  · rw [key _ (by simp [emit])]
    simp [emit]
  · rw [key _ (by simp)]
    simp

/-- C3 (amended): when `load name` is issued twice in a row and both reach
`load_plugin`, and the first call either fully succeeded for a name of at most
19 characters or was itself turned down by the capacity check or the name
check (it returned -1), then the second call returns -1 without opening the
module and leaves the registry as the first call left it.  In every state
with that registry the call, also through `handle_builtin` and through a round
of the loop that the shortcut of line 195 does not take (the last plugin is
not named `load`), is turned down by the name check while the registry holds
fewer than 10 modules, and by the capacity check when it holds 10. -/
theorem second_load_rejected (w1 w2 : World) (s : Shell) (name : CStr)
    (h : ((load_plugin w1 s name).2 = 0 ∧ name.length ≤ 19) ∨
      (load_plugin w1 s name).2 = -1) :
    (load_plugin w2 (load_plugin w1 s name).1 name).2 = -1 ∧
    (load_plugin w2 (load_plugin w1 s name).1 name).1.plugins
      = (load_plugin w1 s name).1.plugins ∧
    (∀ t : Shell, t.plugins = (load_plugin w1 s name).1.plugins →
      (plugin_count t < MAX_PLUGINS →
        load_plugin w2 t name =
          ({ plugins := t.plugins, should_suppress_prompt := true,
             trace := t.trace ++ [Event.init_failed_msg name] }, -1) ∧
        ∀ rest, handle_builtin w2 t ("load".toList :: name :: rest) =
          Ctl.ret { plugins := t.plugins, should_suppress_prompt := true,
                    trace := t.trace ++ [Event.init_failed_msg name] } 1) ∧
      (MAX_PLUGINS ≤ plugin_count t →
        load_plugin w2 t name =
          ({ plugins := t.plugins, should_suppress_prompt := t.should_suppress_prompt,
             trace := t.trace ++ [Event.max_plugins_msg] }, -1) ∧
        ∀ rest, handle_builtin w2 t ("load".toList :: name :: rest) =
          Ctl.ret { plugins := t.plugins, should_suppress_prompt := true,
                    trace := t.trace ++ [Event.max_plugins_msg] } 1)) ∧
    (∀ (t : Shell) (line : CStr) (rest : List CStr),
      t.plugins = (load_plugin w1 s name).1.plugins →
      (parse_input line).parsed = "load".toList :: name :: rest →
      (∀ last, t.plugins.getLast? = some last → last.name ≠ "load".toList) →
      main_iteration w2 t (Read.line line) =
        Ctl.ret { plugins := t.plugins, should_suppress_prompt := false,
                  trace := t.trace ++ (if t.should_suppress_prompt then [] else [Event.prompt])
                    ++ [if plugin_count t < MAX_PLUGINS then Event.init_failed_msg name
                        else Event.max_plugins_msg] } true) := by
  have hreg : MAX_PLUGINS ≤ plugin_count (load_plugin w1 s name).1 ∨
      ∃ q, find_plugin (load_plugin w1 s name).1.plugins name = some q := by
    rcases h with ⟨h0, hlen⟩ | h1
    · obtain ⟨_, _, h3⟩ := load_plugin_ok w1 s name h0
      obtain ⟨q, hq⟩ := find_plugin_append_new s.plugins (new_plugin w1 name) name
        (stored_name_short name hlen)
      exact Or.inr ⟨q, by rw [h3]; exact hq⟩
    · obtain ⟨hp, hc⟩ := load_plugin_minus_one w1 s name h1
      unfold plugin_count
      rw [hp]
      exact hc
  have hall : ∀ t : Shell, t.plugins = (load_plugin w1 s name).1.plugins →
      (MAX_PLUGINS ≤ plugin_count t ∨ ∃ q, find_plugin t.plugins name = some q) := by
    intro t ht
    unfold plugin_count at hreg ⊢
    rw [ht]
    exact hreg
  have hself := load_plugin_rejected w2 (load_plugin w1 s name).1 name hreg
  refine ⟨?_, ?_, ?_, ?_⟩
  · by_cases hfull : MAX_PLUGINS ≤ plugin_count (load_plugin w1 s name).1
    · rw [hself.2 hfull]
    · rw [hself.1 (by omega)]
  · by_cases hfull : MAX_PLUGINS ≤ plugin_count (load_plugin w1 s name).1
    · rw [hself.2 hfull]
    · rw [hself.1 (by omega)]
  · intro t ht
    have ht2 := load_plugin_rejected w2 t name (hall t ht)
    refine ⟨fun hlt => ⟨ht2.1 hlt, fun rest => ?_⟩, fun hge => ⟨ht2.2 hge, fun rest => ?_⟩⟩
    · rw [handle_builtin_load, ht2.1 hlt]
    · rw [handle_builtin_load, ht2.2 hge]
  · intro t line rest ht hargs hlast
    exact main_iteration_load_rejected w2 t line name rest hargs hlast (hall t ht)

/-- The scenarios of C3: `load greet` twice with the first load succeeding, and
`load greet` twice more after that, where the first of the two is itself
turned down by the name check. -/
theorem second_load_rejected_witness :
    ((load_plugin world_ok initial "greet".toList).2 = 0 ∧ "greet".toList.length ≤ 19) ∧
    (load_plugin world_ok (load_plugin world_ok initial "greet".toList).1 "greet".toList).2 = -1 ∧
    (load_plugin world_ok (load_plugin world_ok initial "greet".toList).1 "greet".toList).1.plugins
      = (load_plugin world_ok initial "greet".toList).1.plugins ∧
    (load_plugin world_ok (load_plugin world_ok initial "greet".toList).1 "greet".toList).2 = -1 ∧
    (load_plugin world_ok
      (load_plugin world_ok (load_plugin world_ok initial "greet".toList).1 "greet".toList).1
      "greet".toList).1.plugins
      = (load_plugin world_ok (load_plugin world_ok initial "greet".toList).1
          "greet".toList).1.plugins ∧
    main_iteration world_ok (load_plugin world_ok initial "greet".toList).1
        (Read.line "load greet\n".toList) =
      Ctl.ret { plugins := (load_plugin world_ok initial "greet".toList).1.plugins,
                should_suppress_prompt := false,
                trace := (load_plugin world_ok initial "greet".toList).1.trace
                  ++ (if (load_plugin world_ok initial "greet".toList).1.should_suppress_prompt
                      then [] else [Event.prompt])
                  ++ [if plugin_count (load_plugin world_ok initial "greet".toList).1
                        < MAX_PLUGINS
                      then Event.init_failed_msg "greet".toList
                      else Event.max_plugins_msg] } true :=
  ⟨⟨by decide, by decide⟩,
   (second_load_rejected world_ok world_ok initial "greet".toList
      (Or.inl ⟨by decide, by decide⟩)).1,
   (second_load_rejected world_ok world_ok initial "greet".toList
      (Or.inl ⟨by decide, by decide⟩)).2.1,
   by decide,
   (second_load_rejected world_ok world_ok (load_plugin world_ok initial "greet".toList).1
      "greet".toList (Or.inr (by decide))).2.1,
   (second_load_rejected world_ok world_ok initial "greet".toList
      (Or.inl ⟨by decide, by decide⟩)).2.2.2
      (load_plugin world_ok initial "greet".toList).1 "load greet\n".toList [] rfl (by decide)
      (fun last hl => by
        have e : (load_plugin world_ok initial "greet".toList).1.plugins.getLast?
            = some { handle := 1, init := 10, run := 3, name := "greet".toList } := by decide
        rw [e] at hl
        cases hl
        decide)⟩

/-- C3 as stated fails when the first load fails: with a module that cannot be
opened the first `load greet` returns -2 and registers nothing, and the second
`load greet` is not turned down by the name check: it opens the module again,
and in an environment where the module now loads it succeeds and the registry
grows.  It also fails for a name of 20 characters, where the second load
succeeds after a successful first one; and when the first load fills the
registry, the second load gets the capacity message, not that of the name
check. -/
theorem second_load_counterexample :
    (load_plugin world_none initial "greet".toList).2 = -2 ∧
    load_plugin world_none (load_plugin world_none initial "greet".toList).1 "greet".toList =
      ({ plugins := [], should_suppress_prompt := true,
         trace := [Event.dlopen "./greet.so".toList, Event.init_failed_msg "greet".toList,
                   Event.dlopen "./greet.so".toList, Event.init_failed_msg "greet".toList] }, -2) ∧
    load_plugin world_ok (load_plugin world_none initial "greet".toList).1 "greet".toList =
      ({ plugins := [{ handle := 1, init := 10, run := 3, name := "greet".toList }],
         should_suppress_prompt := true,
         trace := [Event.dlopen "./greet.so".toList, Event.init_failed_msg "greet".toList,
                   Event.dlopen "./greet.so".toList, Event.call_init 10] }, 0) ∧
    (load_plugin world_ok initial (List.replicate 20 'a')).2 = 0 ∧
    (load_plugin world_ok (load_plugin world_ok initial (List.replicate 20 'a')).1
      (List.replicate 20 'a')).2 = 0 ∧
    plugin_count nine_shell = 9 ∧
    (load_plugin world_ok nine_shell "j".toList).2 = 0 ∧
    load_plugin world_ok (load_plugin world_ok nine_shell "j".toList).1 "j".toList =
      ({ plugins := (load_plugin world_ok nine_shell "j".toList).1.plugins,
         should_suppress_prompt := true,
         trace := (load_plugin world_ok nine_shell "j".toList).1.trace
           ++ [Event.max_plugins_msg] }, -1) := by
  decide

/-- C4: in every state the loop can reach from the empty registry `plugin_count`
is at most `MAX_PLUGINS`, which is 10; and when the registry holds 10 modules,
`load_plugin` returns -1 with the capacity message and changes neither count
nor entries, also when it is reached through the `load` built-in. -/
theorem registry_capacity :
    MAX_PLUGINS = 10 ∧
    (∀ s, Reachable s → plugin_count s ≤ MAX_PLUGINS) ∧
    (∀ (w : World) (s : Shell) (name : CStr), MAX_PLUGINS ≤ plugin_count s →
      load_plugin w s name =
        ({ plugins := s.plugins, should_suppress_prompt := s.should_suppress_prompt,
           trace := s.trace ++ [Event.max_plugins_msg] }, -1)) ∧
    (∀ (w : World) (s : Shell) (name : CStr) (rest : List CStr), MAX_PLUGINS ≤ plugin_count s →
      handle_builtin w s ("load".toList :: name :: rest) =
        Ctl.ret { plugins := s.plugins, should_suppress_prompt := true,
                  trace := s.trace ++ [Event.max_plugins_msg] } 1) := by
  refine ⟨rfl, reachable_count, fun w s name h => ?_, fun w s name rest h => ?_⟩
  · rw [load_plugin_full w s name h]; rfl
  · rw [handle_builtin_load, load_plugin_full w s name h]
    rfl

/-- The scenario of C4: after ten loads the registry is full and an eleventh load fails. -/
theorem registry_capacity_witness :
    Reachable full_shell ∧ plugin_count full_shell = 10 ∧
    load_plugin world_ok full_shell "k".toList =
      ({ plugins := full_shell.plugins,
         should_suppress_prompt := full_shell.should_suppress_prompt,
         trace := full_shell.trace ++ [Event.max_plugins_msg] }, -1) :=
  ⟨full_shell_reachable, by decide,
   registry_capacity.2.2.1 world_ok full_shell "k".toList (by decide)⟩

/-- C7: a `load` that does not fully succeed (`load_plugin` returns a non-zero
value: registry full, duplicate name, module not opened, an entry point not
resolved, or `initialize` failing) leaves the entries of the registry, and so
its count, as they were; `load` without an operand changes only the flag and
prints its message, without a call of `load_plugin` or of the module loader. -/
theorem failed_load_keeps_registry (w : World) (s : Shell) :
    (∀ name, (load_plugin w s name).2 ≠ 0 → (load_plugin w s name).1.plugins = s.plugins) ∧
    (∀ name rest, (load_plugin w s name).2 ≠ 0 →
      ∃ s1, handle_builtin w s ("load".toList :: name :: rest) = Ctl.ret s1 1 ∧
        s1.plugins = s.plugins ∧ plugin_count s1 = plugin_count s) ∧
    (∀ name, (load_plugin w s name).2 ≠ 0 ↔
      (MAX_PLUGINS ≤ plugin_count s ∨ find_plugin s.plugins name ≠ none ∨
        w.dlopen (plugin_path name) = 0 ∨
        w.dlerror (w.dlopen (plugin_path name)) sym_init = true ∨
        w.init_result (w.dlsym (w.dlopen (plugin_path name)) sym_init) ≠ 0 ∨
        w.dlerror (w.dlopen (plugin_path name)) sym_run = true)) ∧
    handle_builtin w s ["load".toList] =
      Ctl.ret { plugins := s.plugins, should_suppress_prompt := true,
                trace := s.trace ++ [Event.init_failed_123_msg] } 1 := by
  refine ⟨fun name h => load_plugin_fail w s name h, fun name rest h => ?_, fun name => ?_, ?_⟩
  · refine ⟨{ (load_plugin w s name).1 with should_suppress_prompt := true }, ?_, ?_, ?_⟩
    · exact handle_builtin_load w s name rest
    · exact load_plugin_fail w s name h
    · unfold plugin_count
      rw [show ({ (load_plugin w s name).1 with should_suppress_prompt := true } : Shell).plugins
        = (load_plugin w s name).1.plugins from rfl, load_plugin_fail w s name h]
  · rw [ne_eq, load_plugin_ok_iff]
    constructor
    · intro h
      by_contra hc
      push_neg at hc
      obtain ⟨c1, c2, c3, c4, c5, c6⟩ := hc
      exact h ⟨by omega, c2, c3, by simpa using c4, c5, by simpa using c6⟩
    · rintro (h | h | h | h | h | h) ⟨c1, c2, c3, c4, c5, c6⟩
      · omega
      · exact h c2
      · exact c3 h
      · rw [h] at c4; cases c4
      · exact h c5
      · rw [h] at c6; cases c6
  · rfl

/-- The scenario of C7: a module that cannot be opened is not registered. -/
theorem failed_load_keeps_registry_witness :
    (load_plugin world_none initial "greet".toList).2 ≠ 0 ∧
    (load_plugin world_none initial "greet".toList).1.plugins = initial.plugins :=
  ⟨by decide, (failed_load_keeps_registry world_none initial).1 "greet".toList (by decide)⟩

/-- Every round of the loop that goes on ends with the flag cleared (line 208). -/
theorem iteration_ends_unsuppressed (w : World) (s s1 : Shell) (r : Read) (b : Bool)
    (h : main_iteration w s r = Ctl.ret s1 b) : s1.should_suppress_prompt = false := by
  unfold main_iteration main_iteration_with at h
  cases r with
  | eof => simp only at h; cases h; rfl
  | error => simp only at h; cases h; rfl
  | line input =>
    simp only at h
    split at h
    · cases h; rfl
    · cases h
    · cases h

/-- A round that starts with the flag cleared prints the prompt first. -/
theorem iteration_prints_prompt (w : World) (s s1 : Shell) (r : Read) (b : Bool)
    (hflag : s.should_suppress_prompt = false)
    (h : main_iteration w s r = Ctl.ret s1 b) :
    ∃ t, s1.trace = s.trace ++ Event.prompt :: t := by
  unfold main_iteration main_iteration_with at h
  simp only [hflag, Bool.not_false, if_true] at h
  cases r with
  | eof => simp only at h; cases h; exact ⟨[Event.newline], by simp [emit]⟩
  | error => simp only at h; cases h; exact ⟨[Event.perror "fgets".toList], by simp [emit]⟩
  | line input =>
    simp only at h
    split at h
    · rename_i s3 u hd
      cases h
      have key : ∀ (s0 s3 : Shell) (parsed : List CStr),
          main_dispatch w s0 parsed = Ctl.ret s3 () → ∃ t, s3.trace = s0.trace ++ t := by
        intro s0 s3 parsed hd
        have hext : ∀ (s0 s3 : Shell) (parsed : List CStr),
            run_external w s0 parsed = Ctl.ret s3 () → ∃ t, s3.trace = s0.trace ++ t := by
          intro s0 s3 parsed hx
          unfold run_external at hx
          split_ifs at hx
          cases hx
          exact ⟨_, rfl⟩
        have hload : ∀ (s0 : Shell) (name : CStr),
            ∃ t, (load_plugin w s0 name).1.trace = s0.trace ++ t := by
          intro s0 name
          unfold load_plugin
          split_ifs
          · exact ⟨_, rfl⟩
          · split
            · exact ⟨_, rfl⟩
            · simp only
              split_ifs <;> simp [emit]
        have hgen : ∀ (s0 s3 : Shell) (parsed : List CStr),
            main_generic w s0 parsed = Ctl.ret s3 () → ∃ t, s3.trace = s0.trace ++ t := by
          intro s0 s3 parsed hg
          unfold main_generic at hg
          split at hg
          · rename_i s4 v hb
            have h4 : ∃ t, s4.trace = s0.trace ++ t := by
              unfold handle_builtin at hb
              split at hb
              · cases hb
              · split_ifs at hb
                · split at hb
                  · cases hb; exact ⟨_, rfl⟩
                  · simp only at hb
                    split_ifs at hb <;> cases hb <;> exact hload s0 _
                · cases hb; exact ⟨[], by simp⟩
            obtain ⟨t4, ht4⟩ := h4
            split_ifs at hg
            · unfold execute_command at hg
              have h5 : ∃ t, s3.trace = s4.trace ++ t := by
                split at hg
                · split at hg
                  · exact hext _ _ _ hg
                  · cases hg
                · split at hg
                  · cases hg; exact ⟨_, rfl⟩
                  · exact hext _ _ _ hg
              obtain ⟨t5, ht5⟩ := h5
              exact ⟨t4 ++ t5, by rw [ht5, ht4, List.append_assoc]⟩
            · cases hg; exact ⟨t4, ht4⟩
          · cases hg
          · cases hg
        unfold main_dispatch at hd
        split at hd
        · exact hgen _ _ _ hd
        · split at hd
          · cases hd
          · split_ifs at hd
            · cases hd; exact ⟨_, rfl⟩
            · exact hgen _ _ _ hd
      obtain ⟨t, ht⟩ := key _ s3 _ hd
      refine ⟨t, ?_⟩
      simp only [ht, emit, List.append_assoc, List.singleton_append]
    · cases h
    · cases h

/-- C5, the code at a failed load, a successful load and a plugin call: each
of the three rounds ends with the flag cleared, and the round after each of
them prints the prompt (four prompts for four rounds). -/
theorem prompt_after_load_not_suppressed :
    main_iteration world_ok initial (Read.line "load\n".toList) =
      Ctl.ret { plugins := [], should_suppress_prompt := false,
                trace := [Event.prompt, Event.init_failed_123_msg] } true ∧
    run_loop initial
        [(world_ok, Read.line "load\n".toList),
         (world_ok, Read.line "load greet\n".toList),
         (world_ok, Read.line "greet hi\n".toList),
         (world_ok, Read.eof)] =
      Ctl.ret { plugins := [{ handle := 1, init := 10, run := 3, name := "greet".toList }],
                should_suppress_prompt := false,
                trace := [Event.prompt, Event.init_failed_123_msg,
                          Event.prompt, Event.dlopen "./greet.so".toList, Event.call_init 10,
                          Event.prompt, Event.call_run 3 ["greet".toList, "hi".toList],
                          Event.prompt, Event.newline] } false := by
  decide

/-- A line of spaces and newlines gives an empty argument vector, and the
round dereferences its first element: with a plugin registered in the
shortcut test of line 195, without one in `handle_builtin` on line 113. -/
theorem whitespace_line_faults (w : World) (s : Shell) (line : CStr)
    (h : ∀ c ∈ line, c = ' ' ∨ c = '\n') :
    (parse_input line).parsed = [] ∧
    main_iteration w s (Read.line line) =
      Ctl.fault { plugins := s.plugins, should_suppress_prompt := false,
                  trace := s.trace ++ (if s.should_suppress_prompt then [] else [Event.prompt]) } := by
  have hp : (parse_input line).parsed = [] := parse_input_parsed line [] (Tokenization.done line h)
  refine ⟨hp, ?_⟩
  unfold main_iteration main_iteration_with
  simp only [hp]
  unfold main_dispatch main_generic handle_builtin
  cases hflag : s.should_suppress_prompt <;> cases hpl : s.plugins.getLast? <;>
    simp [emit, hpl]

/-- C6, the code at the line that holds only a newline, in the initial state and
with a plugin registered: the round ends in a NULL dereference instead of doing
nothing. -/
theorem whitespace_line_fault_eval :
    (parse_input "\n".toList).parsed = [] ∧
    main_iteration world_ok initial (Read.line "\n".toList) =
      Ctl.fault { plugins := [], should_suppress_prompt := false, trace := [Event.prompt] } ∧
    main_iteration world_ok exit_shell (Read.line "  \n".toList) =
      Ctl.fault { plugins := exit_shell.plugins, should_suppress_prompt := false,
                  trace := exit_shell.trace ++ [Event.prompt] } := by
  decide

theorem twice_shell_reachable : Reachable twice_shell :=
  run_loop_reachable
    [(world_ok, Read.line ("load ".toList ++ List.replicate 20 'a' ++ "\n".toList)),
     (world_ok, Read.line ("load ".toList ++ List.replicate 20 'a' ++ "\n".toList))]
    initial twice_shell true Reachable.init (by decide)

/-- C8, the code at two loads of one name of 20 characters: both succeed, and the
registry holds two entries with the same stored name. -/
theorem duplicate_stored_names :
    run_loop initial
        [(world_ok, Read.line ("load ".toList ++ List.replicate 20 'a' ++ "\n".toList)),
         (world_ok, Read.line ("load ".toList ++ List.replicate 20 'a' ++ "\n".toList))]
      = Ctl.ret twice_shell true ∧
    twice_shell.plugins.map Plugin.name = [List.replicate 19 'a', List.replicate 19 'a'] ∧
    ¬ (twice_shell.plugins.map Plugin.name).Nodup := by
  decide

/-! ## Resolution order -/

theorem find_plugin_first (l1 l2 : List Plugin) (p : Plugin) (cmd : CStr)
    (hp : p.name = cmd) (h1 : ∀ q ∈ l1, q.name ≠ cmd) :
    find_plugin (l1 ++ p :: l2) cmd = some p := by
  unfold find_plugin
  induction l1 with
  | nil => simp [List.find?_cons, hp]
  | cons a as ih =>
    have ha : (a.name == cmd) = false := by
      simpa using h1 a (List.mem_cons_self a as)
    simp only [List.cons_append, List.find?_cons, ha]
    exact ih (fun q hq => h1 q (List.mem_cons_of_mem a hq))

theorem find_plugin_none (ps : List Plugin) (cmd : CStr) (h : ∀ q ∈ ps, q.name ≠ cmd) :
    find_plugin ps cmd = none := by
  unfold find_plugin
  rw [List.find?_eq_none]
  intro q hq
  simpa using h q hq

theorem main_generic_other (w : World) (s : Shell) (cmd : CStr) (rest : List CStr)
    (hexit : cmd ≠ "exit".toList) (hload : cmd ≠ "load".toList) :
    main_generic w s (cmd :: rest) = execute_command w s (cmd :: rest) := by
  unfold main_generic handle_builtin
  simp only [hexit, hload, if_false, if_true]

theorem main_generic_plugin (w : World) (s : Shell) (cmd : CStr) (rest : List CStr) (p : Plugin)
    (hexit : cmd ≠ "exit".toList) (hload : cmd ≠ "load".toList)
    (hf : find_plugin s.plugins cmd = some p) :
    main_generic w s (cmd :: rest) = Ctl.ret (emit s (Event.call_run p.run (cmd :: rest))) () := by
  rw [main_generic_other w s cmd rest hexit hload]
  unfold execute_command
  simp only [hf]

theorem main_generic_external (w : World) (s : Shell) (cmd : CStr) (rest : List CStr)
    (hexit : cmd ≠ "exit".toList) (hload : cmd ≠ "load".toList)
    (hf : find_plugin s.plugins cmd = none) :
    main_generic w s (cmd :: rest) = run_external w s (cmd :: rest) := by
  rw [main_generic_other w s cmd rest hexit hload]
  unfold execute_command
  simp only [hf]

/-- C9: for a non-empty argument vector the generic path (`handle_builtin`, then
`execute_command`) resolves the command in this order: `exit` ends the process
with status 0; else `load` runs the load built-in and nothing else; else the
first registered module whose name equals `args[0]` has its `run` called with
the whole vector and no process is started; else the vector goes to the
external path, which starts `args[0]` with `args` as argv once `fork` has
succeeded (and ends the shell with status 1 when `fork` fails). -/
theorem dispatch_order (w : World) (s : Shell) (cmd : CStr) (rest : List CStr) :
    (cmd = "exit".toList → main_generic w s (cmd :: rest) = Ctl.exit s 0) ∧
    (cmd = "load".toList → rest = [] →
      main_generic w s (cmd :: rest) =
        Ctl.ret { plugins := s.plugins, should_suppress_prompt := true,
                  trace := s.trace ++ [Event.init_failed_123_msg] } ()) ∧
    (cmd = "load".toList → ∀ name tail, rest = name :: tail →
      main_generic w s (cmd :: rest) =
        Ctl.ret { plugins := (load_plugin w s name).1.plugins, should_suppress_prompt := true,
                  trace := (load_plugin w s name).1.trace } ()) ∧
    (cmd ≠ "exit".toList → cmd ≠ "load".toList →
      ∀ (l1 l2 : List Plugin) (p : Plugin), s.plugins = l1 ++ p :: l2 → p.name = cmd →
        (∀ q ∈ l1, q.name ≠ cmd) →
        main_generic w s (cmd :: rest) =
          Ctl.ret { plugins := s.plugins, should_suppress_prompt := s.should_suppress_prompt,
                    trace := s.trace ++ [Event.call_run p.run (cmd :: rest)] } ()) ∧
    (cmd ≠ "exit".toList → cmd ≠ "load".toList → (∀ q ∈ s.plugins, q.name ≠ cmd) →
      main_generic w s (cmd :: rest) = run_external w s (cmd :: rest) ∧
      (w.fork ≠ -1 →
        main_generic w s (cmd :: rest) =
          Ctl.ret { plugins := s.plugins, should_suppress_prompt := s.should_suppress_prompt,
                    trace := s.trace ++ [Event.spawn (some cmd) (cmd :: rest)] } ()) ∧
      (w.fork = -1 →
        main_generic w s (cmd :: rest) =
          Ctl.exit { plugins := s.plugins, should_suppress_prompt := s.should_suppress_prompt,
                     trace := s.trace ++ [Event.perror "fork".toList] } 1)) ∧
    main_generic world_ok initial ["ls".toList, "-la".toList] =
      Ctl.ret { plugins := [], should_suppress_prompt := false,
                trace := [Event.spawn (some "ls".toList) ["ls".toList, "-la".toList]] } () := by
  refine ⟨?_, ?_, ?_, ?_, ?_, by decide⟩
  · intro h
    subst h
    rfl
  · intro h hr
    subst h hr
    rfl
  · intro h name tail hr
    subst h hr
    unfold main_generic
    rw [handle_builtin_load]
    rfl
  · intro hexit hload l1 l2 p hs hp h1
    rw [main_generic_plugin w s cmd rest p hexit hload (hs ▸ find_plugin_first l1 l2 p cmd hp h1)]
    rfl
  · intro hexit hload hnone
    have e := main_generic_external w s cmd rest hexit hload (find_plugin_none s.plugins cmd hnone)
    refine ⟨e, fun hf => ?_, fun hf => ?_⟩
    · rw [e]; unfold run_external; rw [if_neg hf]; rfl
    · rw [e]; unfold run_external; rw [if_pos hf]; rfl

/-- The scenarios of C9: a registered plugin, `exit`, and the external `ls -la`. -/
theorem dispatch_order_witness :
    "greet".toList ≠ "exit".toList ∧ "greet".toList ≠ "load".toList ∧
    main_generic world_ok (load_plugin world_ok initial "greet".toList).1
        ["greet".toList, "hello".toList] =
      Ctl.ret { plugins := (load_plugin world_ok initial "greet".toList).1.plugins,
                should_suppress_prompt :=
                  (load_plugin world_ok initial "greet".toList).1.should_suppress_prompt,
                trace := (load_plugin world_ok initial "greet".toList).1.trace ++
                  [Event.call_run 3 ["greet".toList, "hello".toList]] } () ∧
    main_generic world_ok initial ["exit".toList] = Ctl.exit initial 0 ∧
    main_generic world_ok initial ["ls".toList, "-la".toList] =
      Ctl.ret { plugins := [], should_suppress_prompt := false,
                trace := [] ++ [Event.spawn (some "ls".toList) ["ls".toList, "-la".toList]] } () :=
  ⟨by decide, by decide,
   (dispatch_order world_ok (load_plugin world_ok initial "greet".toList).1 "greet".toList
      ["hello".toList]).2.2.2.1 (by decide) (by decide) []
      [] { handle := 1, init := 10, run := 3, name := "greet".toList } (by decide) rfl
      (fun q hq => absurd hq (List.not_mem_nil q)),
   (dispatch_order world_ok initial "exit".toList []).1 rfl,
   ((dispatch_order world_ok initial "ls".toList ["-la".toList]).2.2.2.2.1 (by decide) (by decide)
      (fun q hq => absurd hq (List.not_mem_nil q))).2.1 (by decide)⟩

/-! ## The shortcut of lines 195-197 -/

theorem getLast?_split (ps : List Plugin) (last : Plugin) (h : ps.getLast? = some last) :
    ps = ps.dropLast ++ [last] := by
  have hne : ps ≠ [] := by
    intro h0
    rw [h0] at h
    cases h
  have h1 := List.dropLast_append_getLast hne
  rw [List.getLast?_eq_getLast ps hne] at h
  cases h
  exact h1.symm

theorem find_plugin_last (ps : List Plugin) (last : Plugin)
    (hl : ps.getLast? = some last) (huniq : (ps.map Plugin.name).Nodup) :
    find_plugin ps last.name = some last := by
  have hsplit := getLast?_split ps last hl
  rw [hsplit] at huniq ⊢
  rw [List.map_append, List.nodup_append] at huniq
  obtain ⟨_, _, hdis⟩ := huniq
  refine find_plugin_first ps.dropLast [] last last.name rfl ?_
  intro q hq heq
  exact hdis (List.mem_map_of_mem Plugin.name hq) (by rw [heq]; simp)

/-- C10 (amended): in a registry whose stored names are pairwise distinct, when
`args[0]` is the name of the most recently loaded plugin and is neither `exit`
nor `load`, the generic path calls the `run` of that same plugin with the same
argument vector, and a round of the loop with the shortcut and one without it
end alike: same registry, same flag, same trace. -/
theorem shortcut_redundant (w : World) (s : Shell) (last : Plugin) (line : CStr)
    (args : List CStr)
    (hlast : s.plugins.getLast? = some last)
    (hargs : (parse_input line).parsed = last.name :: args)
    (hexit : last.name ≠ "exit".toList) (hload : last.name ≠ "load".toList)
    (huniq : (s.plugins.map Plugin.name).Nodup) :
    main_generic w s (last.name :: args) =
      Ctl.ret { plugins := s.plugins, should_suppress_prompt := s.should_suppress_prompt,
                trace := s.trace ++ [Event.call_run last.run (last.name :: args)] } () ∧
    main_iteration w s (Read.line line) = main_iteration_generic w s (Read.line line) ∧
    main_iteration w s (Read.line line) =
      Ctl.ret { plugins := s.plugins, should_suppress_prompt := false,
                trace := s.trace ++ (if s.should_suppress_prompt then [] else [Event.prompt])
                  ++ [Event.call_run last.run (last.name :: args)] } true := by
  have hgen : ∀ s0 : Shell, s0.plugins = s.plugins →
      main_generic w s0 (last.name :: args) =
        Ctl.ret (emit s0 (Event.call_run last.run (last.name :: args))) () := by
    intro s0 h0
    exact main_generic_plugin w s0 last.name args last hexit hload
      (by rw [h0]; exact find_plugin_last s.plugins last hlast huniq)
  have hsc : ∀ s0 : Shell, s0.plugins = s.plugins →
      main_dispatch w s0 (last.name :: args) =
        Ctl.ret { emit s0 (Event.call_run last.run (last.name :: args))
                    with should_suppress_prompt := true } () := by
    intro s0 h0
    exact main_dispatch_last w s0 last args (by rw [h0]; exact hlast)
  refine ⟨by rw [hgen s rfl]; rfl, ?_, ?_⟩
  · unfold main_iteration main_iteration_generic main_iteration_with
    simp only [hargs]
    cases hflag : s.should_suppress_prompt
    · rw [hgen _ (by simp [emit]), hsc _ (by simp [emit])]
    · rw [hgen _ (by simp), hsc _ (by simp)]
  · unfold main_iteration main_iteration_with
    simp only [hargs]
    cases hflag : s.should_suppress_prompt
    · rw [hsc _ (by simp [emit])]
      simp [emit]
    · rw [hsc _ (by simp)]
      simp [emit]

/-- The scenario of C10: with `greet` loaded last, `greet hello` ends alike on both paths. -/
theorem shortcut_redundant_witness :
    main_iteration world_ok (load_plugin world_ok initial "greet".toList).1
        (Read.line "greet hello\n".toList) =
      main_iteration_generic world_ok (load_plugin world_ok initial "greet".toList).1
        (Read.line "greet hello\n".toList) :=
  (shortcut_redundant world_ok (load_plugin world_ok initial "greet".toList).1
    { handle := 1, init := 10, run := 3, name := "greet".toList } "greet hello\n".toList
    ["hello".toList] (by decide) (by decide) (by decide) (by decide) (by decide)).2.1

theorem exit_shell_reachable : Reachable exit_shell :=
  run_loop_reachable [(world_ok, Read.line "load exit\n".toList)] initial exit_shell true
    Reachable.init (by decide)

/-- C10 as stated fails in the state reached by `load exit`: on the line `exit`
the loop with the shortcut calls the plugin's `run` and goes on, while the
generic path ends the process with status 0. -/
theorem shortcut_counterexample :
    run_loop initial [(world_ok, Read.line "load exit\n".toList)] = Ctl.ret exit_shell true ∧
    (parse_input "exit\n".toList).parsed = ["exit".toList] ∧
    main_iteration world_ok exit_shell (Read.line "exit\n".toList) =
      Ctl.ret { plugins := exit_shell.plugins, should_suppress_prompt := false,
                trace := exit_shell.trace ++ [Event.prompt, Event.call_run 3 ["exit".toList]] }
        true ∧
    main_iteration_generic world_ok exit_shell (Read.line "exit\n".toList) =
      Ctl.exit { plugins := exit_shell.plugins, should_suppress_prompt := false,
                 trace := exit_shell.trace ++ [Event.prompt] } 0 ∧
    main_iteration world_ok exit_shell (Read.line "exit\n".toList) ≠
      main_iteration_generic world_ok exit_shell (Read.line "exit\n".toList) := by
  decide

/-! ## Slots of the token array -/

/-- Every store of a token goes to a slot inside the array; the one store left,
the NULL terminator of line 53, goes to slot `index`, the number of tokens,
which is at most the capacity and can be equal to it. -/
theorem token_stores_in_bounds (line : CStr) :
    ∃ pre, (parse_input line).writes
        = pre ++ [((parse_input line).parsed.length, (parse_input line).size)] ∧
      (∀ w ∈ pre, w.1 < w.2) ∧
      (parse_input line).parsed.length ≤ (parse_input line).size := by
  have h := parse_loop_slots (line.length + 1) (strtok line [' ', '\n']).1
    (strtok line [' ', '\n']).2 { size := 10, index := 0, parsed := [], writes := [] }
    ⟨by decide, by decide, rfl, fun w hw => absurd hw (List.not_mem_nil w)⟩
  obtain ⟨_, h1, h2, h3⟩ := h
  refine ⟨_, ?_, h3, ?_⟩
  · simp only [parse_input, h2]
  · simp only [parse_input]
    omega

/-- C11, the code at a line of exactly 10 tokens and at one of exactly 20: the
ten (twenty) tokens fill slots 0 to 9 (0 to 19) of an array of capacity 10
(20), and the NULL terminator is stored at slot 10 (20) with the capacity still
10 (20), so this store is not below the capacity. -/
theorem terminator_store_out_of_bounds :
    (parse_input ten_tokens).parsed.length = 10 ∧
    (parse_input ten_tokens).size = 10 ∧
    (parse_input ten_tokens).writes =
      [(0, 10), (1, 10), (2, 10), (3, 10), (4, 10), (5, 10), (6, 10), (7, 10), (8, 10),
       (9, 10), (10, 10)] ∧
    ¬ (∀ w ∈ (parse_input ten_tokens).writes, w.1 < w.2) ∧
    (parse_input twenty_tokens).parsed.length = 20 ∧
    (parse_input twenty_tokens).writes.getLast? = some (20, 20) ∧
    ¬ (∀ w ∈ (parse_input twenty_tokens).writes, w.1 < w.2) := by
  decide

end Msh
